import Mathlib

/-!
# Verification of the antigen-panel analysis engine

Shallow embedding of the decision logic of the alloantibody-identification
dashboard (`main.py`, `navigation_and_step4.py`, `database.py`): the panel
normalizer, the exclusion rule engine, the status classifier, the selection
reconciler, the wizard-stage gating, and the snapshot persistence layer.
Definitions mirror the Python source; theorems settle the specification's
claims about them.
-/

namespace Engine

/-- One panel row after the meta-column handling of `analyze_data`:
`liss` is the value of the `LISS` column, `rx c` is `row.get(c)` for an
antigen column `c` (missing column / NaN cell is modelled as `""`,
which compares unequal to `"+"` exactly as `None == "+"` / `nan == "+"`
do in Python). -/
structure Row where
  liss : String
  rx : String → String

/-- A panel table: the data-frame column list (after upload/edit) together
with its rows. All rows of a data frame share the column list. -/
structure Panel where
  cols : List String
  rows : List Row

/-- The meta columns dropped from `negatives` in `analyze_data`
(`drop(columns=["Sp.Nr.", "Tz.Nr.", "Spez. Antigen", "LISS"], errors='ignore')`). -/
def metaCols : List String := ["Sp.Nr.", "Tz.Nr.", "Spez. Antigen", "LISS"]

/-- `negatives.columns`: the panel columns after the meta-column drop. -/
def Panel.negCols (p : Panel) : List String := p.cols.filter (fun c => c ∉ metaCols)

/-- `exclusion_pairs` from `analyze_data` (main.py line 144). -/
def exclusion_pairs : List (String × String) :=
  [("C", "c"), ("E", "e"), ("K", "k"), ("Kpa", "Kpb"),
   ("Jsa", "Jsb"), ("Fya", "Fyb"), ("Jka", "Jkb"),
   ("Lea", "Leb"), ("M", "N"), ("S", "s"), ("Lua", "Lub")]

/-- `allowed_hetero` from `analyze_data` (main.py line 147). -/
def allowed_hetero : List String := ["Cw", "K", "Kpa", "Lua"]

/-- `zygosity` from `analyze_data` (main.py lines 149-152). -/
def zygosity (val1 val2 : String) : String :=
  if val1 = "+" ∧ val2 = "+" then "hetero"
  else if val1 = "+" ∨ val2 = "+" then "homo"
  else "negativ"

/-- The raw staging loop (main.py lines 160-163): every antigen column that is
both a panel column and a catalog antigen and shows `"+"` on the row is staged. -/
def rawStagings (catalog negCols : List String) (r : Row) : List String :=
  (negCols.filter (fun c => c ∈ catalog)).filter (fun a => r.rx a = "+")

/-- The staging contributed by one antithetical pair on one negative row
(main.py lines 165-179): skipped when either column is absent; in the
homozygous case each `"+"` member is staged; in the heterozygous case only
allow-listed `"+"` members are staged. -/
def pairStagings1 (negCols : List String) (r : Row) (p : String × String) : List String :=
  if p.1 ∈ negCols ∧ p.2 ∈ negCols then
    let status := zygosity (r.rx p.1) (r.rx p.2)
    if status = "homo" then
      (if r.rx p.1 = "+" then [p.1] else []) ++ (if r.rx p.2 = "+" then [p.2] else [])
    else if status = "hetero" then
      (if p.1 ∈ allowed_hetero ∧ r.rx p.1 = "+" then [p.1] else []) ++
      (if p.2 ∈ allowed_hetero ∧ r.rx p.2 = "+" then [p.2] else [])
    else []
  else []

/-- All pair stagings of one negative row, over the configured pairs. -/
def pairStagings (negCols : List String) (r : Row) : List String :=
  exclusion_pairs.flatMap (pairStagings1 negCols r)

/-- `temp_excl` for one negative row: raw stagings followed by pair stagings. -/
def rowStagings (catalog negCols : List String) (r : Row) : List String :=
  rawStagings catalog negCols r ++ pairStagings negCols r

/-- The negative rows (`df[df["LISS"] == "-"]`) with their original 0-based
data-frame index, in order. -/
def negativesIdx (rows : List Row) : List (Nat × Row) :=
  rows.enum.filter (fun ir => ir.2.liss = "-")

/-- `system_excluded` (main.py lines 157-181): the union of the staged antigens
over all negative rows, represented as the concatenated staging list (the
Python value is a `set`, observed only through membership). -/
def systemExcludedList (catalog : List String) (p : Panel) : List String :=
  (negativesIdx p.rows).flatMap (fun ir => rowStagings catalog p.negCols ir.2)

/-- The `exclusion_tracking` append events: each staging of antigen `a` on the
negative row with data-frame index `i` appends `i + 1` to `exclusion_tracking[a]`. -/
def trackingEvents (catalog : List String) (p : Panel) : List (String × Nat) :=
  (negativesIdx p.rows).flatMap
    (fun ir => (rowStagings catalog p.negCols ir.2).map (fun a => (a, ir.1 + 1)))

/-- `exclusion_tracking[a]`: the per-antigen append list, in event order. -/
def exclusionTracking (catalog : List String) (p : Panel) (a : String) : List Nat :=
  ((trackingEvents catalog p).filter (fun e => e.1 = a)).map (fun e => e.2)

/-- Insertion of a value into an ascending list, keeping it ascending. -/
def insertSorted (n : Nat) : List Nat → List Nat
  | [] => [n]
  | m :: ms => if n ≤ m then n :: m :: ms else m :: insertSorted n ms

/-- Ascending insertion sort of a list of naturals. -/
def sortNats : List Nat → List Nat
  | [] => []
  | n :: ns => insertSorted n (sortNats ns)

/-- `sorted(set(l))` for a list of naturals: ascending sorted distinct values. -/
def sortedDedup (l : List Nat) : List Nat := sortNats l.dedup

/-- The reactive LISS grades used by the classifier (main.py line 187). -/
def reactiveVals : List String := ["+/-", "1+", "2+", "3+", "4+"]

/-- `pos_count` for an antigen (main.py line 193): the number of reactive rows
whose reaction for that antigen is `"+"`. -/
def posCount (p : Panel) (ag : String) : Nat :=
  ((p.rows.filter (fun r => r.liss ∈ reactiveVals)).filter (fun r => r.rx ag = "+")).length

/-- The classifier's status for one antigen (main.py lines 189-201). -/
def statusOf (catalog : List String) (p : Panel) (ag : String) : String :=
  if ag ∈ systemExcludedList catalog p then "Ausgestrichen"
  else
    let c := posCount p ag
    if 3 ≤ c then "Bestätigt (3x +)"
    else if c = 2 then "Bestätigt (2x +)"
    else if c = 1 then "Nicht ausgeschlossen"
    else "Keine Reaktion"

/-- `status_map`: one entry per catalog antigen, in catalog order. -/
def statusMapList (catalog : List String) (p : Panel) : List (String × String) :=
  catalog.map (fun ag => (ag, statusOf catalog p ag))

/-- The audit reason string for an excluded antigen (main.py line 191). -/
def mkReason (rows : List Nat) : String :=
  "Tz Nr: " ++ String.intercalate ", " (rows.map (fun n => toString n))

/-- `exclusion_reasons`: one entry per excluded catalog antigen, catalog order. -/
def exclusionReasonsList (catalog : List String) (p : Panel) : List (String × String) :=
  (catalog.filter (fun ag => ag ∈ systemExcludedList catalog p)).map
    (fun ag => (ag, mkReason (sortedDedup (exclusionTracking catalog p ag))))

/-- `selected_antigens` in `go_to_step2` (main.py line 1037): the system
selection, i.e. the catalog antigens not excluded. -/
def selectedAntigens (catalog : List String) (p : Panel) : List String :=
  catalog.filter (fun ag => ag ∉ systemExcludedList catalog p)

/-- `user_selections = selected_antigens.copy()` in `go_to_step2`
(main.py line 1038). -/
def initialUserSelections (catalog : List String) (p : Panel) : List String :=
  selectedAntigens catalog p

end Engine

namespace Normalizer

/-- Default Python `str.strip` whitespace characters (ASCII fragment). -/
def isPySpace (c : Char) : Bool :=
  c = ' ' ∨ c = '\t' ∨ c = '\n' ∨ c = '\r' ∨ c = '\x0b' ∨ c = '\x0c'

/-- `str(x).strip()`: remove leading and trailing whitespace. -/
def pyStrip (s : String) : String :=
  ⟨((s.data.dropWhile isPySpace).reverse.dropWhile isPySpace).reverse⟩

/-- `LISS_VALUES` (main.py line 82). -/
def LISS_VALUES : List String := ["-", "+/-", "1+", "2+", "3+", "4+"]

/-- The cell normalizer applied to the LISS column by `prepare_data`
(main.py line 127): `lambda x: x if str(x).strip() in LISS_VALUES else "-"`.
The argument is the `str()` form of the cell. -/
def normalizeLISS (x : String) : String :=
  if pyStrip x ∈ LISS_VALUES then x else "-"

/-- `prepare_data`'s effect on the LISS column: the normalizer applied cellwise. -/
def prepareLISSColumn (c : List String) : List String := c.map normalizeLISS

end Normalizer

namespace Wizard

/-- A key of the wizard's `step-states` dict. The handlers write integer keys
(`data={0: True, ...}` in `app.layout`, `step_states[2] = True` in
`go_to_step2`), but a `dcc.Store` round-trips its data through JSON, which
renders every key as a string — so the dict a callback receives is
string-keyed. -/
inductive PyKey where
  | int (n : Int)
  | str (s : String)
deriving DecidableEq, Repr

/-- A Python dict with boolean values, in insertion order, as `step_states`
is. -/
abbrev PyDict := List (PyKey × Bool)

/-- `d.get(k, dflt)`. The JSON round trip can produce duplicated keys (an
integer key stringified onto an existing string key); `json.loads` keeps the
last occurrence, so lookup takes the last matching entry. For dicts built by
plain assignment the keys are unique and this is ordinary dict lookup. -/
def dictGet (d : PyDict) (k : PyKey) (dflt : Bool) : Bool :=
  (d.reverse.lookup k).getD dflt

/-- Python dict assignment `d[k] = v`: update the existing entry in place, or
append a new one. -/
def dictSet (d : PyDict) (k : PyKey) (v : Bool) : PyDict :=
  if (d.lookup k).isSome then d.map (fun kv => if kv.1 = k then (k, v) else kv)
  else d ++ [(k, v)]

/-- The JSON round trip a `dcc.Store` applies to its data between callbacks:
every key is rendered as a string (integer keys in decimal). -/
def storeRoundTrip (d : PyDict) : PyDict :=
  d.map (fun kv =>
    match kv.1 with
    | PyKey.int n => (PyKey.str (toString n), kv.2)
    | PyKey.str s => (PyKey.str s, kv.2))

/-- A fresh step-states dict as the handlers write it: integer keys 0-4. -/
def mkStepStates (s0 s1 s2 s3 s4 : Bool) : PyDict :=
  [(PyKey.int 0, s0), (PyKey.int 1, s1), (PyKey.int 2, s2),
   (PyKey.int 3, s3), (PyKey.int 4, s4)]

/-- Whether every key of a dict is a string (the shape in which a
`dcc.Store`-delivered dict arrives at a callback). -/
def allStrKeys (d : PyDict) : Bool :=
  d.all (fun kv => match kv.1 with | PyKey.str _ => true | PyKey.int _ => false)

/-- The `dcc.Store` components carrying the working state between callbacks
(main.py lines 669-677). `stepStates` holds the dict as delivered to a
callback, i.e. after the store's JSON round trip. -/
structure AppState where
  currentStep : Int
  stepStates : PyDict
  analyzedData : Option Engine.Panel
  statusMap : Option (List (String × String))
  exclusionReasons : Option (List (String × String))
  systemExcluded : Option (List String)
  selectedAntigens : Option (List String)
  userSelections : Option (List String)
  lotNumber : Option String

/-- The outcome of one Dash callback on the stored state: `prevented`
(`PreventUpdate`) and `errored` (an uncaught exception) write no outputs;
`updated` writes the new store values. -/
inductive CallbackResult where
  | prevented
  | errored
  | updated (st : AppState)

/-- The stored state after a callback: a callback that raises (either
`PreventUpdate` or an error) writes no outputs, so every store keeps its
previous value. -/
def CallbackResult.stateD (r : CallbackResult) (st : AppState) : AppState :=
  match r with
  | .updated s => s
  | _ => st

/-- The stores' initial data in `app.layout`: landing pseudostate `-1`, only
step 0 unlocked, all analysis stores empty. -/
def initialAppState : AppState :=
  { currentStep := -1
    stepStates := storeRoundTrip (mkStepStates true false false false false)
    analyzedData := none
    statusMap := none
    exclusionReasons := none
    systemExcluded := none
    selectedAntigens := none
    userSelections := none
    lotNumber := none }

/-- `start_analysis` (main.py lines 853-858): go to step 0, write
`step_states = {0: True, 1: True, 2: False, 3: False, 4: False}`. -/
def startAnalysis (st : AppState) : AppState :=
  { st with currentStep := 0
            stepStates := storeRoundTrip (mkStepStates true true false false false) }

/-- `proceed_from_step0` (main.py lines 971-992): go to step 1, store the
confirmed table and the lot number, write
`step_states = {0: True, 1: True, 2: True, 3: True, 4: False}`. -/
def proceedFromStep0 (st : AppState) (df : Engine.Panel) (lotNum : Option String) : AppState :=
  { st with currentStep := 1
            analyzedData := some df
            lotNumber := lotNum
            stepStates := storeRoundTrip (mkStepStates true true true true false) }

/-- `handle_step_navigation` (main.py lines 765-813) on the stored state, for
a resolved step-bar button index `n`. The gate at line 787
(`if not step_states.get(step_num, False): raise PreventUpdate`) looks the
integer step number up in the store-delivered dict. The per-step branches
change only the current step among the stores, but the branches for steps 2
and 3 first dereference the `system-excluded` store (`set(system_excluded)`
at line 799, `ag not in system_excluded` at line 803), raising `TypeError`
while that store is still empty. Dereferences deeper inside the layout
builders (steps 2 and 4 also read the status map while building content) are
not modelled; no theorem relies on the branches, which are unreachable: as
proved below, the gate never passes on a store-delivered state, because the
JSON round trip has turned the flag keys into strings. -/
def handleStepNavigation (st : AppState) (n : Int) : CallbackResult :=
  if dictGet st.stepStates (PyKey.int n) false = false then .prevented
  else if n = 0 then .updated { st with currentStep := 0 }
  else if n = 1 then .updated { st with currentStep := 1 }
  else if n = 2 then
    match st.systemExcluded with
    | none => .errored
    | some _ => .updated { st with currentStep := 2 }
  else if n = 3 then
    match st.systemExcluded with
    | none => .errored
    | some _ => .updated { st with currentStep := 3 }
  else if n = 4 then .updated { st with currentStep := 4 }
  else .prevented

/-- `go_to_step2` (main.py lines 1022-1056) on the stored state: gated only on
the click and `current_step == 1`; it runs `analyze_data` on the confirmed
table (read from the step-1 data table, passed here as `table`), stores the
resulting status map, reasons, excluded list, and the selection initialized to
catalog minus excluded, and sets the step-states flags 2 and 3 (integer keys,
re-stringified by the store round trip). In manual mode the rule engine is
bypassed: empty exclusions and every antigen `"Nicht ausgeschlossen"`. -/
def goToStep2 (catalog : List String) (st : AppState) (nClicks : Bool)
    (table : Engine.Panel) (manual : Bool) : CallbackResult :=
  if nClicks = false ∨ st.currentStep ≠ 1 then .prevented
  else
    let excluded : List String :=
      if manual then [] else Engine.systemExcludedList catalog table
    let selected : List String := catalog.filter (fun ag => ag ∉ excluded)
    .updated { st with
      currentStep := 2
      analyzedData := some table
      statusMap := some (if manual then catalog.map (fun ag => (ag, "Nicht ausgeschlossen"))
        else Engine.statusMapList catalog table)
      exclusionReasons := some (if manual then []
        else Engine.exclusionReasonsList catalog table)
      systemExcluded := some excluded
      selectedAntigens := some selected
      userSelections := some selected
      stepStates := storeRoundTrip (dictSet (dictSet st.stepStates (PyKey.int 2) true)
        (PyKey.int 3) true) }

/-- `included_columns` as computed by `go_to_step3` (main.py line 1195):
`selected_antigens if selected_antigens else []` — the stored system
selection, defaulted to the empty list when falsy; there is no non-emptiness
check. -/
def step3IncludedColumns (st : AppState) : List String :=
  st.selectedAntigens.getD []

/-- `go_to_step3` (main.py lines 1186-1203) on the stored state: refused
(`PreventUpdate`) without a click or when the current step is not 2; a falsy
stored panel (`not analyzed_data`: missing or empty records list) raises
`ValueError`, writing no outputs; otherwise the advance proceeds — with the
selection defaulted by `step3IncludedColumns`, never checked for
non-emptiness — moving the current step to 3 and setting flags 3 and 4. -/
def goToStep3 (st : AppState) (nClicks : Bool) : CallbackResult :=
  if nClicks = false ∨ st.currentStep ≠ 2 then .prevented
  else
    match st.analyzedData with
    | none => .errored
    | some df =>
      if df.rows.isEmpty then .errored
      else .updated { st with
        currentStep := 3
        stepStates := storeRoundTrip (dictSet (dictSet st.stepStates (PyKey.int 3) true)
          (PyKey.int 4) true) }

end Wizard

namespace LabReport

/-- Python's substring operator `needle in hay`. -/
def pyInStr (needle hay : String) : Bool := decide (needle.data <:+: hay.data)

/-- `system_selected` in `create_lab_technical_report`
(navigation_and_step4.py line 681):
`[ag for ag, status in status_map.items() if "Ausgeschlossen" not in status]`. -/
def labSystemSelected (statusMap : List (String × String)) : List String :=
  (statusMap.filter (fun kv => ! pyInStr "Ausgeschlossen" kv.2)).map (fun kv => kv.1)

/-- Python `set(a).symmetric_difference(b)`. -/
def symmDiffSet (a b : List String) : Finset String :=
  (a.toFinset \ b.toFinset) ∪ (b.toFinset \ a.toFinset)

/-- `differences` in `create_lab_technical_report`
(navigation_and_step4.py line 682). -/
def labDifferences (statusMap : List (String × String)) (userSelections : List String) :
    Finset String :=
  symmDiffSet userSelections (labSystemSelected statusMap)

/-- The selection the specification calls `systemSelected` at this point: the
status-map antigens whose status is not the excluded status `"Ausgestrichen"`. -/
def specSystemSelected (statusMap : List (String × String)) : List String :=
  (statusMap.filter (fun kv => kv.2 ≠ "Ausgestrichen")).map (fun kv => kv.1)

/-- `differences` in `build_final_table` (main.py lines 404-407) and in
`get_step3_layout` (main.py lines 585-588):
`set(user_selections).symmetric_difference(set(included_columns))`. -/
def finalTableDifferences (includedColumns userSelections : List String) : Finset String :=
  symmDiffSet userSelections includedColumns

end LabReport

namespace Json

/-- JSON values in the fragment the snapshot store serializes: strings,
arrays and string-keyed objects. -/
inductive JVal where
  | jstr : String → JVal
  | jarr : List JVal → JVal
  | jobj : List (String × JVal) → JVal

/-- Escaping of one character inside a JSON string literal. -/
def escChar (c : Char) : List Char :=
  if c = '"' ∨ c = '\\' then ['\\', c] else [c]

/-- Escaping of a character sequence. -/
def escape (l : List Char) : List Char := l.flatMap escChar

/-- Rendering of a JSON string literal. -/
def renderStr (s : String) : List Char := '"' :: (escape s.data ++ ['"'])

mutual

/-- Serialization of a JSON value to characters. -/
def renderVal : JVal → List Char
  | .jstr s => renderStr s
  | .jarr [] => ['[', ']']
  | .jarr (v :: vs) => '[' :: (renderVal v ++ renderArrRest vs)
  | .jobj [] => ['\x7b', '\x7d']
  | .jobj ((k, v) :: kvs) =>
      '\x7b' :: (renderStr k ++ ':' :: (renderVal v ++ renderObjRest kvs))
termination_by v => sizeOf v

/-- Serialization of the tail of an array (separators and closing bracket). -/
def renderArrRest : List JVal → List Char
  | [] => [']']
  | v :: vs => ',' :: (renderVal v ++ renderArrRest vs)
termination_by l => sizeOf l

/-- Serialization of the tail of an object (separators and closing brace). -/
def renderObjRest : List (String × JVal) → List Char
  | [] => ['\x7d']
  | (k, v) :: kvs => ',' :: (renderStr k ++ ':' :: (renderVal v ++ renderObjRest kvs))
termination_by l => sizeOf l

end

/-- Parsing of the body of a string literal (after the opening quote). -/
def parseStrChars : List Char → Option (List Char × List Char)
  | [] => none
  | c :: cs =>
    if c = '"' then some ([], cs)
    else if c = '\\' then
      match cs with
      | [] => none
      | e :: cs2 =>
        match parseStrChars cs2 with
        | some (s, r) => some (e :: s, r)
        | none => none
    else
      match parseStrChars cs with
      | some (s, r) => some (c :: s, r)
      | none => none

mutual

/-- Fuelled recursive-descent parsing of one JSON value. -/
def parseVal : Nat → List Char → Option (JVal × List Char)
  | 0, _ => none
  | _ + 1, [] => none
  | fuel + 1, c :: cs =>
    if c = '"' then
      match parseStrChars cs with
      | some (s, r) => some (.jstr ⟨s⟩, r)
      | none => none
    else if c = '[' then
      match cs with
      | [] => none
      | c2 :: cs2 =>
        if c2 = ']' then some (.jarr [], cs2)
        else
          match parseVal fuel (c2 :: cs2) with
          | some (v, r1) =>
            match parseArrRest fuel r1 with
            | some (vs, r2) => some (.jarr (v :: vs), r2)
            | none => none
          | none => none
    else if c = '\x7b' then
      match cs with
      | [] => none
      | c2 :: cs2 =>
        if c2 = '\x7d' then some (.jobj [], cs2)
        else if c2 = '"' then
          match parseStrChars cs2 with
          | some (k, r1) =>
            match r1 with
            | ':' :: r2 =>
              match parseVal fuel r2 with
              | some (v, r3) =>
                match parseObjRest fuel r3 with
                | some (kvs, r4) => some (.jobj ((⟨k⟩, v) :: kvs), r4)
                | none => none
              | none => none
            | _ => none
          | none => none
        else none
    else none

/-- Fuelled parsing of the tail of an array. -/
def parseArrRest : Nat → List Char → Option (List JVal × List Char)
  | 0, _ => none
  | _ + 1, [] => none
  | fuel + 1, c :: cs =>
    if c = ']' then some ([], cs)
    else if c = ',' then
      match parseVal fuel cs with
      | some (v, r1) =>
        match parseArrRest fuel r1 with
        | some (vs, r2) => some (v :: vs, r2)
        | none => none
      | none => none
    else none

/-- Fuelled parsing of the tail of an object. -/
def parseObjRest : Nat → List Char → Option (List (String × JVal) × List Char)
  | 0, _ => none
  | _ + 1, [] => none
  | fuel + 1, c :: cs =>
    if c = '\x7d' then some ([], cs)
    else if c = ',' then
      match cs with
      | '"' :: cs2 =>
        match parseStrChars cs2 with
        | some (k, r1) =>
          match r1 with
          | ':' :: r2 =>
            match parseVal fuel r2 with
            | some (v, r3) =>
              match parseObjRest fuel r3 with
              | some (kvs, r4) => some ((⟨k⟩, v) :: kvs, r4)
              | none => none
            | none => none
          | _ => none
        | none => none
      | _ => none
    else none

end

/-- `json.dumps` on the modelled fragment. -/
def dumps (v : JVal) : String := ⟨renderVal v⟩

/-- `json.loads` on the modelled fragment: parse one value, reject trailing
input; any failure yields `none`. -/
def loads (s : String) : Option JVal :=
  match parseVal s.data.length s.data with
  | some (v, []) => some v
  | _ => none

/-- Size measure of a JSON value (an upper bound for the parsing fuel). -/
def jsz : JVal → Nat
  | .jstr _ => 1
  | .jarr [] => 1
  | .jarr (v :: vs) => 1 + jsz v + jsz (.jarr vs)
  | .jobj [] => 1
  | .jobj ((_, v) :: kvs) => 1 + jsz v + jsz (.jobj kvs)
termination_by v => sizeOf v

end Json

namespace DB

open Json

/-- The JSON text columns of the `Analysis` ORM row (database.py lines 36-38). -/
structure Analysis where
  liss_json : Option String
  status_json : Option String
  user_sel_json : Option String

/-- `Analysis.set_liss_data` (database.py lines 52-58):
`self.liss_json = json.dumps(data) if data is not None else None`. -/
def Analysis.set_liss_data (a : Analysis) (data : Option JVal) : Analysis :=
  { a with liss_json := data.map dumps }

/-- `Analysis.get_liss_data` (database.py lines 44-50):
`json.loads(self.liss_json) if self.liss_json else None`, decode errors
yielding `None`. An absent or empty (falsy) column yields `None`. -/
def Analysis.get_liss_data (a : Analysis) : Option JVal :=
  match a.liss_json with
  | none => none
  | some s => if s = "" then none else loads s

/-- `Analysis.set_status_data` (database.py lines 68-74). -/
def Analysis.set_status_data (a : Analysis) (data : Option JVal) : Analysis :=
  { a with status_json := data.map dumps }

/-- `Analysis.get_status_data` (database.py lines 60-66). -/
def Analysis.get_status_data (a : Analysis) : Option JVal :=
  match a.status_json with
  | none => none
  | some s => if s = "" then none else loads s

/-- `Analysis.set_user_selections` (database.py lines 84-90). -/
def Analysis.set_user_selections (a : Analysis) (data : Option JVal) : Analysis :=
  { a with user_sel_json := data.map dumps }

/-- `Analysis.get_user_selections` (database.py lines 76-82). -/
def Analysis.get_user_selections (a : Analysis) : Option JVal :=
  match a.user_sel_json with
  | none => none
  | some s => if s = "" then none else loads s

/-- The status blob stored by `save_to_database` (main.py lines 1326-1330):
`{'status_map': ..., 'exclusion_reasons': ..., 'system_excluded': ...}`. -/
def statusBlob (statusMap exclusionReasons systemExcluded : JVal) : JVal :=
  .jobj [("status_map", statusMap), ("exclusion_reasons", exclusionReasons),
         ("system_excluded", systemExcluded)]

/-- The three setter calls of `save_to_database` (main.py lines 1325-1331). -/
def saveToDatabase (a : Analysis) (lissData : JVal)
    (statusMap exclusionReasons systemExcluded : JVal) (userSelections : JVal) : Analysis :=
  ((a.set_liss_data (some lissData)).set_status_data
      (some (statusBlob statusMap exclusionReasons systemExcluded))).set_user_selections
    (some userSelections)

/-- Python `dict.get(key)` on a parsed JSON object (as used by
`load_from_database`, main.py lines 942-950). -/
def jget (v : JVal) (key : String) : Option JVal :=
  match v with
  | .jobj kvs => kvs.lookup key
  | _ => none

end DB

namespace Engine

/-- The raw-staging-only variant of the exclusion engine (main.py lines
158-163 with the pair loop of lines 165-179 removed): the refinement target
of the equivalence claim about the zygosity branches. -/
def rawOnlyExcludedList (catalog : List String) (p : Panel) : List String :=
  (negativesIdx p.rows).flatMap (fun ir => rawStagings catalog p.negCols ir.2)

/-- The audit events of the raw-staging-only variant. -/
def rawOnlyTrackingEvents (catalog : List String) (p : Panel) : List (String × Nat) :=
  (negativesIdx p.rows).flatMap
    (fun ir => (rawStagings catalog p.negCols ir.2).map (fun a => (a, ir.1 + 1)))

/-- The per-antigen audit list of the raw-staging-only variant. -/
def rawOnlyTracking (catalog : List String) (p : Panel) (a : String) : List Nat :=
  ((rawOnlyTrackingEvents catalog p).filter (fun e => e.1 = a)).map (fun e => e.2)

/-- The claim's description of the excluded set: the catalog antigens that
show reaction `"+"` on at least one row with LISS `"-"` (an antigen shows a
reaction only in its own panel column). -/
def specExcludedSet (catalog : List String) (p : Panel) (a : String) : Prop :=
  a ∈ catalog ∧ a ∈ p.negCols ∧ ∃ r ∈ p.rows, r.liss = "-" ∧ r.rx a = "+"

/-- The antigen catalog of the shipped panel (`ANTIGEN_ORDER`, main.py lines
33-37; `ANTIGEN_COLUMNS` computed from `data.csv` lists these antigens). -/
def antigenColumns : List String :=
  ["D", "C", "E", "c", "e", "Cw", "K", "k", "Kpa", "Kpb", "Jsa", "Jsb",
   "Fya", "Fyb", "Jka", "Jkb", "Lea", "Leb", "P1", "M", "N", "S", "s",
   "Lua", "Lub", "Xga"]

end Engine

namespace Scenarios

/-- The row of the scenario panel with `LISS "-"`, `K "+"`, `k "+"`. -/
def rowKk : Engine.Row :=
  { liss := "-", rx := fun a => if a = "K" then "+" else if a = "k" then "+" else "" }

/-- Scenario panel with one row: LISS negative, `K` and `k` both positive. -/
def panelKk : Engine.Panel :=
  { cols := ["Tz.Nr.", "LISS", "K", "k"], rows := [rowKk] }

/-- The row of the scenario panel with `LISS "-"`, `C "+"`, `c "0"`. -/
def rowCc : Engine.Row :=
  { liss := "-", rx := fun a => if a = "C" then "+" else if a = "c" then "0" else "" }

/-- Scenario panel with one row: LISS negative, only `C` positive. -/
def panelCc : Engine.Panel :=
  { cols := ["Tz.Nr.", "LISS", "C", "c"], rows := [rowCc] }

/-- Scenario panel: antigen `M` with reactions `"+", "+", "+", "-"` over four
reactive rows and no negative row. -/
def panelM : Engine.Panel :=
  { cols := ["Tz.Nr.", "LISS", "M", "N"],
    rows := [{ liss := "1+", rx := fun a => if a = "M" then "+" else "" },
             { liss := "2+", rx := fun a => if a = "M" then "+" else "" },
             { liss := "3+", rx := fun a => if a = "M" then "+" else "" },
             { liss := "4+", rx := fun a => if a = "M" then "-" else "" }] }

/-- The stored wizard state right after confirming step 0 from the landing
page and moving to step 1 (before any grading pass has run). -/
def step1State : Wizard.AppState :=
  Wizard.proceedFromStep0 (Wizard.startAnalysis Wizard.initialAppState) panelKk
    (some "45161.80.1")

/-- The stored state after the grading pass (`go_to_step2`) on the K/k panel
with the two-antigen catalog: every catalog antigen is excluded, so the
stored system and user selections are both empty. -/
def step2EmptySelectionState : Wizard.AppState :=
  (Wizard.goToStep2 ["K", "k"] step1State true panelKk false).stateD step1State

/-- The stored state after the 2→3 advance (`go_to_step3`) from the
empty-selection step-2 state. -/
def step3AdvancedState : Wizard.AppState :=
  (Wizard.goToStep3 step2EmptySelectionState true).stateD step2EmptySelectionState

end Scenarios

namespace Json

theorem jsz_pos : ∀ v : JVal, 0 < jsz v := by
  intro v
  match v with
  | .jstr s => simp [jsz]
  | .jarr [] => simp [jsz]
  | .jarr (v :: vs) => simp [jsz]
  | .jobj [] => simp [jsz]
  | .jobj ((k, v) :: kvs) => simp [jsz]

theorem escape_cons (c : Char) (cs : List Char) :
    escape (c :: cs) = escChar c ++ escape cs := rfl

theorem parseStrChars_quote (X : List Char) : parseStrChars ('"' :: X) = some ([], X) := by
  rw [parseStrChars.eq_def]
  simp

theorem parseStrChars_cons_esc (e : Char) (X : List Char) :
    parseStrChars ('\\' :: e :: X) =
      match parseStrChars X with
      | some (s, r) => some (e :: s, r)
      | none => none := by
  rw [parseStrChars.eq_def]
  simp

theorem parseStrChars_cons_plain (c : Char) (h1 : c ≠ '"') (h2 : c ≠ '\\') (X : List Char) :
    parseStrChars (c :: X) =
      match parseStrChars X with
      | some (s, r) => some (c :: s, r)
      | none => none := by
  rw [parseStrChars.eq_def]
  simp [h1, h2]

theorem parseStrChars_escape (s : List Char) (rest : List Char) :
    parseStrChars (escape s ++ '"' :: rest) = some (s, rest) := by
  induction s with
  | nil =>
    have h0 : escape [] ++ '"' :: rest = '"' :: rest := rfl
    rw [h0, parseStrChars_quote]
  | cons c cs ih =>
    by_cases h : c = '"' ∨ c = '\\'
    · have hesc : escChar c = ['\\', c] := by
        rcases h with h | h <;> simp [escChar, h]
      rw [escape_cons, hesc]
      have hshape : (['\\', c] ++ escape cs) ++ '"' :: rest =
          '\\' :: c :: (escape cs ++ '"' :: rest) := by
        simp
      rw [hshape, parseStrChars_cons_esc, ih]
    · push_neg at h
      have hesc : escChar c = [c] := by simp [escChar, h.1, h.2]
      rw [escape_cons, hesc]
      have hshape : ([c] ++ escape cs) ++ '"' :: rest = c :: (escape cs ++ '"' :: rest) := by
        simp
      rw [hshape, parseStrChars_cons_plain c h.1 h.2, ih]

theorem renderVal_shape (v : JVal) :
    ∃ c cs, renderVal v = c :: cs ∧ (c = '"' ∨ c = '[' ∨ c = '\x7b') := by
  match v with
  | .jstr s => exact ⟨'"', escape s.data ++ ['"'], by rw [renderVal, renderStr], Or.inl rfl⟩
  | .jarr [] => exact ⟨'[', [']'], by rw [renderVal], Or.inr (Or.inl rfl)⟩
  | .jarr (v :: vs) =>
    exact ⟨'[', renderVal v ++ renderArrRest vs, by rw [renderVal], Or.inr (Or.inl rfl)⟩
  | .jobj [] => exact ⟨'\x7b', ['\x7d'], by rw [renderVal], Or.inr (Or.inr rfl)⟩
  | .jobj ((k, v) :: kvs) =>
    exact ⟨'\x7b', renderStr k ++ ':' :: (renderVal v ++ renderObjRest kvs),
      by rw [renderVal], Or.inr (Or.inr rfl)⟩

theorem jsz_arr_cons (v : JVal) (vs : List JVal) :
    jsz (JVal.jarr (v :: vs)) = 1 + jsz v + jsz (JVal.jarr vs) := by rw [jsz]

theorem jsz_obj_cons (k : String) (v : JVal) (kvs : List (String × JVal)) :
    jsz (JVal.jobj ((k, v) :: kvs)) = 1 + jsz v + jsz (JVal.jobj kvs) := by rw [jsz]

theorem parseVal_succ (fuel : Nat) (c : Char) (cs : List Char) :
    parseVal (fuel + 1) (c :: cs) =
    (if c = '"' then
      match parseStrChars cs with
      | some (s, r) => some (.jstr ⟨s⟩, r)
      | none => none
    else if c = '[' then
      match cs with
      | [] => none
      | c2 :: cs2 =>
        if c2 = ']' then some (.jarr [], cs2)
        else
          match parseVal fuel (c2 :: cs2) with
          | some (v, r1) =>
            match parseArrRest fuel r1 with
            | some (vs, r2) => some (.jarr (v :: vs), r2)
            | none => none
          | none => none
    else if c = '\x7b' then
      match cs with
      | [] => none
      | c2 :: cs2 =>
        if c2 = '\x7d' then some (.jobj [], cs2)
        else if c2 = '"' then
          match parseStrChars cs2 with
          | some (k, r1) =>
            match r1 with
            | ':' :: r2 =>
              match parseVal fuel r2 with
              | some (v, r3) =>
                match parseObjRest fuel r3 with
                | some (kvs, r4) => some (.jobj ((⟨k⟩, v) :: kvs), r4)
                | none => none
              | none => none
            | _ => none
          | none => none
        else none
    else none) := rfl

theorem parseArrRest_succ (fuel : Nat) (c : Char) (cs : List Char) :
    parseArrRest (fuel + 1) (c :: cs) =
    (if c = ']' then some ([], cs)
    else if c = ',' then
      match parseVal fuel cs with
      | some (v, r1) =>
        match parseArrRest fuel r1 with
        | some (vs, r2) => some (v :: vs, r2)
        | none => none
      | none => none
    else none) := rfl

theorem parseObjRest_succ (fuel : Nat) (c : Char) (cs : List Char) :
    parseObjRest (fuel + 1) (c :: cs) =
    (if c = '\x7d' then some ([], cs)
    else if c = ',' then
      match cs with
      | '"' :: cs2 =>
        match parseStrChars cs2 with
        | some (k, r1) =>
          match r1 with
          | ':' :: r2 =>
            match parseVal fuel r2 with
            | some (v, r3) =>
              match parseObjRest fuel r3 with
              | some (kvs, r4) => some ((⟨k⟩, v) :: kvs, r4)
              | none => none
            | none => none
          | _ => none
        | none => none
      | _ => none
    else none) := rfl

theorem parse_render_aux : ∀ fuel : Nat,
    (∀ v rest, jsz v ≤ fuel → parseVal fuel (renderVal v ++ rest) = some (v, rest)) ∧
    (∀ l rest, jsz (JVal.jarr l) ≤ fuel →
      parseArrRest fuel (renderArrRest l ++ rest) = some (l, rest)) ∧
    (∀ l rest, jsz (JVal.jobj l) ≤ fuel →
      parseObjRest fuel (renderObjRest l ++ rest) = some (l, rest)) := by
  intro fuel
  induction fuel with
  | zero =>
    refine ⟨fun v rest h => absurd h ?_, fun l rest h => absurd h ?_,
            fun l rest h => absurd h ?_⟩
    · have := jsz_pos v; omega
    · have := jsz_pos (JVal.jarr l); omega
    · have := jsz_pos (JVal.jobj l); omega
  | succ f ih =>
    obtain ⟨ihV, ihA, ihO⟩ := ih
    refine ⟨?_, ?_, ?_⟩
    · intro v rest hsz
      match v with
      | .jstr s =>
        rw [show renderVal (JVal.jstr s) = '"' :: (escape s.data ++ ['"']) from
            by rw [renderVal, renderStr]]
        rw [show ('"' :: (escape s.data ++ ['"'])) ++ rest
            = '"' :: (escape s.data ++ '"' :: rest) from by simp]
        rw [parseVal_succ]
        simp [parseStrChars_escape]
      | .jarr [] =>
        rw [show renderVal (JVal.jarr []) = ['[', ']'] from by rw [renderVal]]
        rw [show (['[', ']'] : List Char) ++ rest = '[' :: ']' :: rest from by simp]
        rw [parseVal_succ]
        have h1 : ¬(('[' : Char) = '"') := by decide
        simp [h1]
      | .jarr (v1 :: vs) =>
        rw [jsz_arr_cons] at hsz
        have hp1 := jsz_pos v1
        have hp2 := jsz_pos (JVal.jarr vs)
        have hsz1 : jsz v1 ≤ f := by omega
        have hsz2 : jsz (JVal.jarr vs) ≤ f := by omega
        obtain ⟨c2, cs2, hv, hc2⟩ := renderVal_shape v1
        have hc2ne : ¬(c2 = ']') := by rcases hc2 with h | h | h <;> subst h <;> decide
        rw [show renderVal (JVal.jarr (v1 :: vs)) = '[' :: (renderVal v1 ++ renderArrRest vs)
            from by rw [renderVal]]
        rw [show ('[' :: (renderVal v1 ++ renderArrRest vs)) ++ rest
            = '[' :: (renderVal v1 ++ (renderArrRest vs ++ rest)) from by simp]
        rw [hv]
        rw [show ((c2 :: cs2) ++ (renderArrRest vs ++ rest))
            = c2 :: (cs2 ++ (renderArrRest vs ++ rest)) from by simp]
        rw [parseVal_succ]
        have h1 : ¬(('[' : Char) = '"') := by decide
        rw [if_neg h1, if_pos rfl]
        simp only [if_neg hc2ne]
        rw [show c2 :: (cs2 ++ (renderArrRest vs ++ rest))
            = renderVal v1 ++ (renderArrRest vs ++ rest) from by rw [hv]; simp]
        rw [ihV v1 _ hsz1]
        simp only []
        rw [ihA vs rest hsz2]
      | .jobj [] =>
        rw [show renderVal (JVal.jobj []) = ['\x7b', '\x7d'] from by rw [renderVal]]
        rw [show (['\x7b', '\x7d'] : List Char) ++ rest = '\x7b' :: '\x7d' :: rest from by simp]
        rw [parseVal_succ]
        have h1 : ¬(('\x7b' : Char) = '"') := by decide
        have h2 : ¬(('\x7b' : Char) = '[') := by decide
        simp [h1, h2]
      | .jobj ((k, v1) :: kvs) =>
        rw [jsz_obj_cons] at hsz
        have hp1 := jsz_pos v1
        have hp2 := jsz_pos (JVal.jobj kvs)
        have hsz1 : jsz v1 ≤ f := by omega
        have hsz2 : jsz (JVal.jobj kvs) ≤ f := by omega
        rw [show renderVal (JVal.jobj ((k, v1) :: kvs))
            = '\x7b' :: (renderStr k ++ ':' :: (renderVal v1 ++ renderObjRest kvs))
            from by rw [renderVal]]
        rw [renderStr]
        rw [show ('\x7b' :: (('"' :: (escape k.data ++ ['"']))
              ++ ':' :: (renderVal v1 ++ renderObjRest kvs))) ++ rest
            = '\x7b' :: '"' :: (escape k.data
              ++ '"' :: ':' :: (renderVal v1 ++ (renderObjRest kvs ++ rest))) from by simp]
        rw [parseVal_succ]
        have h1 : ¬(('\x7b' : Char) = '"') := by decide
        have h2 : ¬(('\x7b' : Char) = '[') := by decide
        have h3 : ¬(('"' : Char) = '\x7d') := by decide
        rw [if_neg h1, if_neg h2, if_pos rfl]
        simp only [if_neg h3, if_pos rfl]
        rw [parseStrChars_escape]
        simp only []
        rw [ihV v1 _ hsz1]
        simp only []
        rw [ihO kvs rest hsz2]
        rfl
    · intro l rest hsz
      match l with
      | [] =>
        rw [show renderArrRest ([] : List JVal) = [']'] from by rw [renderArrRest]]
        rw [show ([']'] : List Char) ++ rest = ']' :: rest from by simp]
        rw [parseArrRest_succ]
        simp
      | v1 :: vs =>
        rw [jsz_arr_cons] at hsz
        have hp1 := jsz_pos v1
        have hp2 := jsz_pos (JVal.jarr vs)
        have hsz1 : jsz v1 ≤ f := by omega
        have hsz2 : jsz (JVal.jarr vs) ≤ f := by omega
        rw [show renderArrRest (v1 :: vs) = ',' :: (renderVal v1 ++ renderArrRest vs)
            from by rw [renderArrRest]]
        rw [show (',' :: (renderVal v1 ++ renderArrRest vs)) ++ rest
            = ',' :: (renderVal v1 ++ (renderArrRest vs ++ rest)) from by simp]
        rw [parseArrRest_succ]
        have h1 : ¬((',' : Char) = ']') := by decide
        rw [if_neg h1, if_pos rfl]
        rw [ihV v1 _ hsz1]
        simp only []
        rw [ihA vs rest hsz2]
    · intro l rest hsz
      match l with
      | [] =>
        rw [show renderObjRest ([] : List (String × JVal)) = ['\x7d'] from by rw [renderObjRest]]
        rw [show (['\x7d'] : List Char) ++ rest = '\x7d' :: rest from by simp]
        rw [parseObjRest_succ]
        simp
      | (k, v1) :: kvs =>
        rw [jsz_obj_cons] at hsz
        have hp1 := jsz_pos v1
        have hp2 := jsz_pos (JVal.jobj kvs)
        have hsz1 : jsz v1 ≤ f := by omega
        have hsz2 : jsz (JVal.jobj kvs) ≤ f := by omega
        rw [show renderObjRest ((k, v1) :: kvs)
            = ',' :: (renderStr k ++ ':' :: (renderVal v1 ++ renderObjRest kvs))
            from by rw [renderObjRest]]
        rw [renderStr]
        rw [show (',' :: (('"' :: (escape k.data ++ ['"']))
              ++ ':' :: (renderVal v1 ++ renderObjRest kvs))) ++ rest
            = ',' :: '"' :: (escape k.data
              ++ '"' :: ':' :: (renderVal v1 ++ (renderObjRest kvs ++ rest))) from by simp]
        rw [parseObjRest_succ]
        have h1 : ¬((',' : Char) = '\x7d') := by decide
        rw [if_neg h1, if_pos rfl]
        simp only []
        rw [parseStrChars_escape]
        simp only []
        rw [ihV v1 _ hsz1]
        simp only []
        rw [ihO kvs rest hsz2]

theorem jsz_le_render : ∀ v : JVal,
    jsz v ≤ (renderVal v).length ∧
    (∀ l, v = JVal.jarr l → jsz v ≤ (renderArrRest l).length) ∧
    (∀ l, v = JVal.jobj l → jsz v ≤ (renderObjRest l).length) := by
  intro v
  induction v using jsz.induct
  case case1 s =>
    refine ⟨?_, ?_, ?_⟩
    · rw [jsz, renderVal, renderStr]; simp
    · intro l h; exact absurd h (by simp)
    · intro l h; exact absurd h (by simp)
  case case2 =>
    refine ⟨?_, ?_, ?_⟩
    · rw [jsz, renderVal]; simp
    · intro l h
      have hl : l = [] := by injection h with h2; exact h2.symm
      subst hl; rw [jsz, renderArrRest]; simp
    · intro l h; exact absurd h (by simp)
  case case3 v1 vs ih1 ih2 =>
    have hlen : jsz (JVal.jarr (v1 :: vs)) ≤ 1 + (renderVal v1).length + (renderArrRest vs).length := by
      rw [jsz_arr_cons]
      have h1 := ih1.1
      have h2 := ih2.2.1 vs rfl
      omega
    refine ⟨?_, ?_, ?_⟩
    · rw [renderVal]; simp only [List.length_cons, List.length_append]; omega
    · intro l h
      have hl : l = v1 :: vs := by injection h with h2; exact h2.symm
      subst hl; rw [renderArrRest]; simp only [List.length_cons, List.length_append]; omega
    · intro l h; exact absurd h (by simp)
  case case4 =>
    refine ⟨?_, ?_, ?_⟩
    · rw [jsz, renderVal]; simp
    · intro l h; exact absurd h (by simp)
    · intro l h
      have hl : l = [] := by injection h with h2; exact h2.symm
      subst hl; rw [jsz, renderObjRest]; simp
  case case5 k v1 kvs ih1 ih2 =>
    have hlen : jsz (JVal.jobj ((k, v1) :: kvs)) ≤
        1 + (renderStr k).length + 1 + (renderVal v1).length + (renderObjRest kvs).length := by
      rw [jsz_obj_cons]
      have h1 := ih1.1
      have h2 := ih2.2.2 kvs rfl
      omega
    refine ⟨?_, ?_, ?_⟩
    · rw [renderVal]; simp only [List.length_cons, List.length_append]; omega
    · intro l h; exact absurd h (by simp)
    · intro l h
      have hl : l = (k, v1) :: kvs := by injection h with h2; exact h2.symm
      subst hl; rw [renderObjRest]; simp only [List.length_cons, List.length_append]; omega

/-- `json.loads` inverts `json.dumps` on the modelled fragment. -/
theorem loads_dumps (v : JVal) : loads (dumps v) = some v := by
  have hfuel : jsz v ≤ (renderVal v).length := (jsz_le_render v).1
  have h := (parse_render_aux (renderVal v).length).1 v [] hfuel
  rw [List.append_nil] at h
  unfold loads dumps
  rw [show (String.mk (renderVal v)).data = renderVal v from rfl, h]

/-- `dumps` never yields the empty (Python-falsy) string. -/
theorem dumps_ne_empty (v : JVal) : dumps v ≠ "" := by
  obtain ⟨c, cs, hv, _⟩ := renderVal_shape v
  intro h
  have : (dumps v).data = ("" : String).data := by rw [h]
  rw [show (dumps v).data = renderVal v from rfl, hv] at this
  simp at this

end Json

namespace DB

open Json

theorem get_set_roundtrip (a : Analysis) (v : JVal) :
    (a.set_status_data (some v)).get_status_data = some v := by
  unfold Analysis.set_status_data Analysis.get_status_data
  simp only [Option.map_some']
  rw [if_neg (dumps_ne_empty v), loads_dumps]

end DB

namespace Engine

theorem mem_if_singleton {α : Type} {c : Prop} [Decidable c] {x a : α}
    (h : a ∈ (if c then [x] else [])) : a = x ∧ c := by
  split_ifs at h with hc
  · simp only [List.mem_singleton] at h
    exact ⟨h, hc⟩
  · simp at h

theorem mem_rawStagings_iff (catalog negCols : List String) (r : Row) (a : String) :
    a ∈ rawStagings catalog negCols r ↔ a ∈ negCols ∧ a ∈ catalog ∧ r.rx a = "+" := by
  unfold rawStagings
  simp only [List.mem_filter, decide_eq_true_eq]
  tauto

theorem mem_pair_if {α : Type} {c1 c2 : Prop} [Decidable c1] [Decidable c2] {x y a : α}
    (h : a ∈ (if c1 then [x] else []) ++ (if c2 then [y] else [])) :
    (a = x ∧ c1) ∨ (a = y ∧ c2) := by
  rcases List.mem_append.1 h with h | h
  · exact Or.inl (mem_if_singleton h)
  · exact Or.inr (mem_if_singleton h)

theorem zygosity_homo_left (v1 v2 : String) (h1 : v1 = "+") (h2 : v2 ≠ "+") :
    zygosity v1 v2 = "homo" := by
  simp [zygosity, h1, h2]

theorem zygosity_homo_right (v1 v2 : String) (h2 : v2 = "+") (h1 : v1 ≠ "+") :
    zygosity v1 v2 = "homo" := by
  simp [zygosity, h1, h2]

theorem pairStagings1_sub (negCols : List String) (r : Row) (pr : String × String) (a : String)
    (h : a ∈ pairStagings1 negCols r pr) :
    (a = pr.1 ∨ a = pr.2) ∧ a ∈ negCols ∧ r.rx a = "+" := by
  by_cases hg : pr.1 ∈ negCols ∧ pr.2 ∈ negCols
  case neg => simp [pairStagings1, hg] at h
  by_cases h1 : r.rx pr.1 = "+" <;> by_cases h2 : r.rx pr.2 = "+"
  · have hz : zygosity (r.rx pr.1) (r.rx pr.2) = "hetero" := by simp [zygosity, h1, h2]
    simp only [pairStagings1, if_pos hg, hz, if_true] at h
    rcases mem_pair_if h with ⟨rfl, hc⟩ | ⟨rfl, hc⟩
    · exact ⟨Or.inl rfl, hg.1, hc.2⟩
    · exact ⟨Or.inr rfl, hg.2, hc.2⟩
  · have hz : zygosity (r.rx pr.1) (r.rx pr.2) = "homo" := zygosity_homo_left _ _ h1 h2
    simp only [pairStagings1, if_pos hg, hz, if_true] at h
    rcases mem_pair_if h with ⟨rfl, hc⟩ | ⟨rfl, hc⟩
    · exact ⟨Or.inl rfl, hg.1, hc⟩
    · exact ⟨Or.inr rfl, hg.2, hc⟩
  · have hz : zygosity (r.rx pr.1) (r.rx pr.2) = "homo" := zygosity_homo_right _ _ h2 h1
    simp only [pairStagings1, if_pos hg, hz, if_true] at h
    rcases mem_pair_if h with ⟨rfl, hc⟩ | ⟨rfl, hc⟩
    · exact ⟨Or.inl rfl, hg.1, hc⟩
    · exact ⟨Or.inr rfl, hg.2, hc⟩
  · have hz : zygosity (r.rx pr.1) (r.rx pr.2) = "negativ" := by simp [zygosity, h1, h2]
    simp [pairStagings1, if_pos hg, hz] at h

theorem pairStagings1_hetero (negCols : List String) (r : Row) (pr : String × String) (a : String)
    (hz : zygosity (r.rx pr.1) (r.rx pr.2) = "hetero")
    (h : a ∈ pairStagings1 negCols r pr) :
    a ∈ allowed_hetero ∧ r.rx a = "+" := by
  by_cases hg : pr.1 ∈ negCols ∧ pr.2 ∈ negCols
  case neg => simp [pairStagings1, hg] at h
  simp only [pairStagings1, if_pos hg, hz, if_true] at h
  rcases mem_pair_if h with ⟨rfl, hc⟩ | ⟨rfl, hc⟩
  · exact hc
  · exact hc

theorem pairStagings1_homo_left (negCols : List String) (r : Row) (pr : String × String)
    (hg : pr.1 ∈ negCols ∧ pr.2 ∈ negCols)
    (h1 : r.rx pr.1 = "+") (h2 : r.rx pr.2 ≠ "+") :
    pr.1 ∈ pairStagings1 negCols r pr := by
  have hz := zygosity_homo_left (r.rx pr.1) (r.rx pr.2) h1 h2
  simp only [pairStagings1, if_pos hg, hz, if_true]
  simp [h1]

theorem pairStagings1_homo_right (negCols : List String) (r : Row) (pr : String × String)
    (hg : pr.1 ∈ negCols ∧ pr.2 ∈ negCols)
    (h2 : r.rx pr.2 = "+") (h1 : r.rx pr.1 ≠ "+") :
    pr.2 ∈ pairStagings1 negCols r pr := by
  have hz := zygosity_homo_right (r.rx pr.1) (r.rx pr.2) h2 h1
  simp only [pairStagings1, if_pos hg, hz, if_true]
  simp [h2]

theorem mem_negFlat_iff (stage : Row → List String) (rows : List Row) (a : String) :
    a ∈ (negativesIdx rows).flatMap (fun ir => stage ir.2) ↔
      ∃ r ∈ rows, r.liss = "-" ∧ a ∈ stage r := by
  unfold negativesIdx
  simp only [List.mem_flatMap, List.mem_filter, List.mem_enum_iff_getElem?,
    decide_eq_true_eq]
  constructor
  · rintro ⟨⟨i, r⟩, ⟨hget, hliss⟩, hstag⟩
    exact ⟨r, List.getElem?_mem hget, hliss, hstag⟩
  · rintro ⟨r, hr, hliss, hstag⟩
    obtain ⟨i, hi, hget⟩ := List.getElem_of_mem hr
    exact ⟨(i, r), ⟨by simpa using List.getElem?_eq_getElem hi ▸ congrArg some hget, hliss⟩, hstag⟩

theorem mem_negTrack_iff (stage : Row → List String) (rows : List Row) (a : String) (n : Nat) :
    n ∈ (((negativesIdx rows).flatMap
        (fun ir => (stage ir.2).map (fun x => (x, ir.1 + 1)))).filter
          (fun e => e.1 = a)).map (fun e => e.2) ↔
      ∃ i r, rows[i]? = some r ∧ r.liss = "-" ∧ n = i + 1 ∧ a ∈ stage r := by
  unfold negativesIdx
  simp only [List.mem_map, List.mem_filter, List.mem_flatMap, List.mem_enum_iff_getElem?,
    decide_eq_true_eq]
  constructor
  · rintro ⟨⟨a2, n2⟩, ⟨⟨⟨i, r⟩, ⟨hget, hliss⟩, hmem⟩, ha⟩, hn⟩
    obtain ⟨x, hx, hxe⟩ := hmem
    obtain ⟨rfl, rfl⟩ := Prod.mk.injEq .. ▸ And.intro (congrArg Prod.fst hxe) (congrArg Prod.snd hxe)
    exact ⟨i, r, hget, hliss, by simp at ha hn ⊢; omega, ha ▸ hx⟩
  · rintro ⟨i, r, hget, hliss, rfl, hstag⟩
    exact ⟨(a, i + 1), ⟨⟨(i, r), ⟨hget, hliss⟩, ⟨a, hstag, rfl⟩⟩, rfl⟩, rfl⟩

end Engine

namespace Engine

theorem mem_systemExcluded_iff (catalog : List String) (p : Panel) (a : String) :
    a ∈ systemExcludedList catalog p ↔
      ∃ r ∈ p.rows, r.liss = "-" ∧ a ∈ rowStagings catalog p.negCols r :=
  mem_negFlat_iff (rowStagings catalog p.negCols) p.rows a

theorem mem_rawOnlyExcluded_iff (catalog : List String) (p : Panel) (a : String) :
    a ∈ rawOnlyExcludedList catalog p ↔
      ∃ r ∈ p.rows, r.liss = "-" ∧ a ∈ rawStagings catalog p.negCols r :=
  mem_negFlat_iff (rawStagings catalog p.negCols) p.rows a

theorem mem_exclusionTracking_iff (catalog : List String) (p : Panel) (a : String) (n : Nat) :
    n ∈ exclusionTracking catalog p a ↔
      ∃ i r, p.rows[i]? = some r ∧ r.liss = "-" ∧ n = i + 1 ∧
        a ∈ rowStagings catalog p.negCols r :=
  mem_negTrack_iff (rowStagings catalog p.negCols) p.rows a n

theorem mem_rawOnlyTracking_iff (catalog : List String) (p : Panel) (a : String) (n : Nat) :
    n ∈ rawOnlyTracking catalog p a ↔
      ∃ i r, p.rows[i]? = some r ∧ r.liss = "-" ∧ n = i + 1 ∧
        a ∈ rawStagings catalog p.negCols r :=
  mem_negTrack_iff (rawStagings catalog p.negCols) p.rows a n

theorem mem_rowStagings_iff_raw (catalog negCols : List String) (r : Row)
    (hpairs : ∀ pr ∈ exclusion_pairs, pr.1 ∈ catalog ∧ pr.2 ∈ catalog) (a : String) :
    a ∈ rowStagings catalog negCols r ↔ a ∈ rawStagings catalog negCols r := by
  constructor
  · intro h
    rcases List.mem_append.1 h with h | h
    · exact h
    · obtain ⟨pr, hpr, hmem⟩ := List.mem_flatMap.1 h
      obtain ⟨hor, hcol, hrx⟩ := pairStagings1_sub _ _ _ _ hmem
      apply (mem_rawStagings_iff _ _ _ _).2
      refine ⟨hcol, ?_, hrx⟩
      rcases hor with rfl | rfl
      · exact (hpairs pr hpr).1
      · exact (hpairs pr hpr).2
  · exact fun h => List.mem_append.2 (Or.inl h)

theorem lookup_map_self {β : Type} (f : String → β) :
    ∀ (l : List String) (ag : String), ag ∈ l →
      (l.map (fun x => (x, f x))).lookup ag = some (f ag) := by
  intro l
  induction l with
  | nil => intro ag h; simp at h
  | cons x xs ih =>
    intro ag h
    by_cases hx : ag = x
    · subst hx
      simp [List.lookup]
    · have hmem : ag ∈ xs := by
        rcases List.mem_cons.1 h with h | h
        · exact absurd h hx
        · exact h
      have hbeq : (ag == x) = false := beq_eq_false_iff_ne.2 hx
      simp only [List.map_cons, List.lookup, hbeq]
      exact ih ag hmem

theorem mem_insertSorted (n x : Nat) (l : List Nat) :
    x ∈ insertSorted n l ↔ x = n ∨ x ∈ l := by
  induction l with
  | nil => simp [insertSorted]
  | cons m ms ih =>
    by_cases h : n ≤ m
    · simp [insertSorted, h]
    · rw [insertSorted, if_neg h]
      simp only [List.mem_cons, ih]
      tauto

theorem sorted_insertSorted (n : Nat) (l : List Nat)
    (hs : List.Sorted (fun a b => a ≤ b) l) :
    List.Sorted (fun a b => a ≤ b) (insertSorted n l) := by
  induction l with
  | nil => simp [insertSorted]
  | cons m ms ih =>
    obtain ⟨h1, h2⟩ := List.sorted_cons.1 hs
    by_cases h : n ≤ m
    · rw [insertSorted, if_pos h]
      refine List.sorted_cons.2 ⟨?_, hs⟩
      intro b hb
      rcases List.mem_cons.1 hb with rfl | hb
      · exact h
      · exact le_trans h (h1 b hb)
    · rw [insertSorted, if_neg h]
      refine List.sorted_cons.2 ⟨?_, ih h2⟩
      intro b hb
      rcases (mem_insertSorted n b ms).1 hb with rfl | hb
      · omega
      · exact h1 b hb

theorem nodup_insertSorted (n : Nat) (l : List Nat) (hn : n ∉ l) (hl : l.Nodup) :
    (insertSorted n l).Nodup := by
  induction l with
  | nil => simp [insertSorted]
  | cons m ms ih =>
    obtain ⟨hm, hms⟩ := List.nodup_cons.1 hl
    by_cases h : n ≤ m
    · rw [insertSorted, if_pos h]
      exact List.nodup_cons.2 ⟨hn, hl⟩
    · rw [insertSorted, if_neg h]
      refine List.nodup_cons.2 ⟨?_, ih (fun hmem => hn (List.mem_cons_of_mem _ hmem)) hms⟩
      intro hmem
      rcases (mem_insertSorted n m ms).1 hmem with rfl | hmem
      · exact hn (List.mem_cons_self m ms)
      · exact hm hmem

theorem mem_sortNats (l : List Nat) (x : Nat) : x ∈ sortNats l ↔ x ∈ l := by
  induction l with
  | nil => simp [sortNats]
  | cons n ns ih =>
    rw [sortNats]
    simp only [mem_insertSorted, ih, List.mem_cons]

theorem sorted_sortNats (l : List Nat) : List.Sorted (fun a b => a ≤ b) (sortNats l) := by
  induction l with
  | nil => simp [sortNats]
  | cons n ns ih => exact sorted_insertSorted n _ ih

theorem nodup_sortNats (l : List Nat) (hl : l.Nodup) : (sortNats l).Nodup := by
  induction l with
  | nil => simp [sortNats]
  | cons n ns ih =>
    obtain ⟨hn, hns⟩ := List.nodup_cons.1 hl
    exact nodup_insertSorted n _ (fun hmem => hn ((mem_sortNats ns n).1 hmem)) (ih hns)

theorem sortedDedup_sorted (l : List Nat) :
    List.Sorted (fun a b => a ≤ b) (sortedDedup l) :=
  sorted_sortNats l.dedup

theorem sortedDedup_nodup (l : List Nat) : (sortedDedup l).Nodup :=
  nodup_sortNats l.dedup (List.nodup_dedup l)

theorem mem_sortedDedup (l : List Nat) (n : Nat) : n ∈ sortedDedup l ↔ n ∈ l := by
  unfold sortedDedup
  rw [mem_sortNats, List.mem_dedup]

theorem statusOf_mem (catalog : List String) (p : Panel) (ag : String) :
    statusOf catalog p ag ∈ ["Ausgestrichen", "Bestätigt (3x +)", "Bestätigt (2x +)",
      "Nicht ausgeschlossen", "Keine Reaktion"] := by
  unfold statusOf
  by_cases h0 : ag ∈ systemExcludedList catalog p
  · simp [h0]
  · by_cases h3 : 3 ≤ posCount p ag
    · simp [h0, h3]
    · by_cases h2 : posCount p ag = 2
      · simp [h0, h3, h2]
      · by_cases h1 : posCount p ag = 1
        · simp [h0, h3, h2, h1]
        · simp [h0, h3, h2, h1]

theorem labSystemSelected_statusMap (catalog : List String) (p : Panel) :
    LabReport.labSystemSelected (statusMapList catalog p) = catalog := by
  unfold LabReport.labSystemSelected
  have hall : ∀ kv ∈ statusMapList catalog p,
      (! LabReport.pyInStr "Ausgeschlossen" kv.2) = true := by
    intro kv hkv
    unfold statusMapList at hkv
    simp only [List.mem_map] at hkv
    obtain ⟨ag, hag, rfl⟩ := hkv
    have h5 := statusOf_mem catalog p ag
    simp only [List.mem_cons, List.mem_singleton, List.not_mem_nil, or_false] at h5
    show (! LabReport.pyInStr "Ausgeschlossen" (statusOf catalog p ag)) = true
    rcases h5 with h | h | h | h | h <;> rw [h] <;> decide
  rw [List.filter_eq_self.2 hall]
  unfold statusMapList
  rw [List.map_map]
  exact List.map_id'' (fun _ => rfl) catalog

end Engine

/-- Claim C1, counterexample: on the panel `[{row 1, LISS "-", K "+", k "+"}]`
with catalog `["K", "k"]`, the antigen `k` — positive on a heterozygous row and
not on the allowed-heterozygous list — nevertheless lands in the excluded set,
because the unconditional raw staging loop stages every `"+"` antigen of a
negative row. This falsifies the claim's assertion that the excluded set does
not contain `k`. -/
theorem C1_counterexample :
    "k" ∈ Engine.systemExcludedList ["K", "k"] Scenarios.panelKk ∧
    "k" ∉ Engine.allowed_hetero := by
  refine ⟨by decide, by decide⟩

/-- Claim C1 (amended): on a heterozygous negative row, the antithetical-pair
branch itself stages only allow-listed `"+"` members; but the raw staging loop
independently stages every `"+"` antigen of a negative row, so a
non-allow-listed `"+"` member is still excluded by that same row. In the
scenario panel `[{row 1, LISS "-", K "+", k "+"}]` with `K` allow-listed, both
`K` and `k` are excluded. -/
theorem C1_heterozygous_pair_staging
    (catalog : List String) (p : Engine.Panel) (r : Engine.Row) (pr : String × String)
    (hz : Engine.zygosity (r.rx pr.1) (r.rx pr.2) = "hetero") :
    (∀ a ∈ Engine.pairStagings1 p.negCols r pr, a ∈ Engine.allowed_hetero ∧ r.rx a = "+") ∧
    (∀ a, r ∈ p.rows → r.liss = "-" → a ∈ p.negCols → a ∈ catalog → r.rx a = "+" →
      a ∈ Engine.systemExcludedList catalog p) ∧
    "K" ∈ Engine.systemExcludedList ["K", "k"] Scenarios.panelKk ∧
    "k" ∈ Engine.systemExcludedList ["K", "k"] Scenarios.panelKk := by
  refine ⟨fun a ha => Engine.pairStagings1_hetero _ _ _ _ hz ha, ?_, by decide, by decide⟩
  intro a hr hneg hcol hcat hrx
  apply (Engine.mem_systemExcluded_iff catalog p a).2
  exact ⟨r, hr, hneg,
    List.mem_append.2 (Or.inl ((Engine.mem_rawStagings_iff _ _ _ _).2 ⟨hcol, hcat, hrx⟩))⟩

/-- Witness for C1's amended theorem: instantiated on the scenario panel with
the pair `(K, k)`, the pair branch stages `K` (allow-listed, positive), and the
raw staging excludes `k`. -/
theorem C1_heterozygous_pair_staging_witness :
    ("K" ∈ Engine.allowed_hetero ∧ Scenarios.rowKk.rx "K" = "+") ∧
    "k" ∈ Engine.systemExcludedList ["K", "k"] Scenarios.panelKk := by
  have h := C1_heterozygous_pair_staging ["K", "k"] Scenarios.panelKk Scenarios.rowKk
    ("K", "k") (by decide)
  exact ⟨h.1 "K" (by decide), h.2.2.2⟩

/-- Claim C2: on a negative row, an antithetical pair with both columns
present and exactly one member positive stages that member for exclusion,
regardless of the allowed-heterozygous list; in the scenario panel
`[{row 1, LISS "-", C "+", c "0"}]` the antigen `C` (not allow-listed) is
excluded with reason `"Tz Nr: 1"` and `c` is not excluded. -/
theorem C2_homozygous_exclusion
    (catalog : List String) (p : Engine.Panel) (r : Engine.Row) (pr : String × String)
    (hr : r ∈ p.rows) (hneg : r.liss = "-") (hpr : pr ∈ Engine.exclusion_pairs)
    (hc1 : pr.1 ∈ p.negCols) (hc2 : pr.2 ∈ p.negCols) :
    (r.rx pr.1 = "+" → r.rx pr.2 ≠ "+" → pr.1 ∈ Engine.systemExcludedList catalog p) ∧
    (r.rx pr.2 = "+" → r.rx pr.1 ≠ "+" → pr.2 ∈ Engine.systemExcludedList catalog p) ∧
    "C" ∈ Engine.systemExcludedList ["C", "c"] Scenarios.panelCc ∧
    (Engine.exclusionReasonsList ["C", "c"] Scenarios.panelCc).lookup "C" =
      some "Tz Nr: 1" ∧
    "c" ∉ Engine.systemExcludedList ["C", "c"] Scenarios.panelCc := by
  refine ⟨?_, ?_, by decide, by decide, by decide⟩
  · intro h1 h2
    apply (Engine.mem_systemExcluded_iff catalog p pr.1).2
    refine ⟨r, hr, hneg, List.mem_append.2 (Or.inr ?_)⟩
    exact List.mem_flatMap.2 ⟨pr, hpr, Engine.pairStagings1_homo_left _ _ _ ⟨hc1, hc2⟩ h1 h2⟩
  · intro h2 h1
    apply (Engine.mem_systemExcluded_iff catalog p pr.2).2
    refine ⟨r, hr, hneg, List.mem_append.2 (Or.inr ?_)⟩
    exact List.mem_flatMap.2 ⟨pr, hpr, Engine.pairStagings1_homo_right _ _ _ ⟨hc1, hc2⟩ h2 h1⟩

/-- Witness for C2: instantiated on the scenario panel with the pair `(C, c)`,
row 1 is homozygous-pattern, so `C` is excluded with a reason naming row 1. -/
theorem C2_homozygous_exclusion_witness :
    "C" ∈ Engine.systemExcludedList ["C", "c"] Scenarios.panelCc ∧
    (Engine.exclusionReasonsList ["C", "c"] Scenarios.panelCc).lookup "C" =
      some "Tz Nr: 1" := by
  have h := C2_homozygous_exclusion ["C", "c"] Scenarios.panelCc Scenarios.rowCc ("C", "c")
    (List.mem_singleton.2 rfl) rfl (by decide) (by decide) (by decide)
  have h1 := h.1 (by decide) (by decide)
  exact ⟨h1, h.2.2.2.1⟩

/-- Claim C3: the status classifier gives every excluded catalog antigen the
status `"Ausgestrichen"` unconditionally, and every non-excluded catalog
antigen a status determined solely by its count of `"+"` reactions among the
reactive rows: at least 3 gives `"Bestätigt (3x +)"`, exactly 2 gives
`"Bestätigt (2x +)"`, exactly 1 gives `"Nicht ausgeschlossen"`, and 0 gives
`"Keine Reaktion"`. -/
theorem C3_status_classifier
    (catalog : List String) (p : Engine.Panel) (ag : String) (hag : ag ∈ catalog) :
    (ag ∈ Engine.systemExcludedList catalog p →
      (Engine.statusMapList catalog p).lookup ag = some "Ausgestrichen") ∧
    (ag ∉ Engine.systemExcludedList catalog p →
      ((3 ≤ Engine.posCount p ag →
          (Engine.statusMapList catalog p).lookup ag = some "Bestätigt (3x +)") ∧
       (Engine.posCount p ag = 2 →
          (Engine.statusMapList catalog p).lookup ag = some "Bestätigt (2x +)") ∧
       (Engine.posCount p ag = 1 →
          (Engine.statusMapList catalog p).lookup ag = some "Nicht ausgeschlossen") ∧
       (Engine.posCount p ag = 0 →
          (Engine.statusMapList catalog p).lookup ag = some "Keine Reaktion"))) := by
  have hl : (Engine.statusMapList catalog p).lookup ag =
      some (Engine.statusOf catalog p ag) :=
    Engine.lookup_map_self _ catalog ag hag
  constructor
  · intro hex
    rw [hl]
    unfold Engine.statusOf
    rw [if_pos hex]
  · intro hnex
    refine ⟨?_, ?_, ?_, ?_⟩ <;> intro hc <;> rw [hl] <;> unfold Engine.statusOf <;>
      rw [if_neg hnex] <;> simp [hc]

/-- Witness for C3: on the scenario panel with four reactive rows, `M` has
three `"+"` reactions and is confirmed threefold, while `N` has none and gets
`"Keine Reaktion"`. -/
theorem C3_status_classifier_witness :
    (Engine.statusMapList ["M", "N"] Scenarios.panelM).lookup "M" =
      some "Bestätigt (3x +)" ∧
    (Engine.statusMapList ["M", "N"] Scenarios.panelM).lookup "N" =
      some "Keine Reaktion" := by
  refine ⟨((C3_status_classifier ["M", "N"] Scenarios.panelM "M" (by decide)).2
      (by decide)).1 (by decide),
    ((C3_status_classifier ["M", "N"] Scenarios.panelM "N" (by decide)).2
      (by decide)).2.2.2 (by decide)⟩

/-- Claim C4, counterexample: `prepare_data` keeps the original cell when its
stripped form is a valid grade, so the whitespace-padded cell `"1+ "` survives
normalization verbatim even though it is not in the closed enumeration. -/
theorem C4_counterexample :
    "1+ " ∈ Normalizer.prepareLISSColumn ["1+ "] ∧
    "1+ " ∉ Normalizer.LISS_VALUES := by
  refine ⟨by decide, by decide⟩

/-- Claim C4 (amended): after normalization every LISS cell is, up to
surrounding whitespace, in the closed enumeration — its stripped form is a
valid grade — and any cell whose stripped form is not a valid grade is
replaced by `"-"`, so an unrecognized reaction code is never carried through;
a whitespace-padded valid grade, however, is kept verbatim. -/
theorem C4_liss_normalization (col : List String) :
    (∀ y ∈ Normalizer.prepareLISSColumn col,
      Normalizer.pyStrip y ∈ Normalizer.LISS_VALUES) ∧
    (∀ x ∈ col, Normalizer.pyStrip x ∉ Normalizer.LISS_VALUES →
      Normalizer.normalizeLISS x = "-") := by
  constructor
  · intro y hy
    simp only [Normalizer.prepareLISSColumn, List.mem_map] at hy
    obtain ⟨x, hx, rfl⟩ := hy
    unfold Normalizer.normalizeLISS
    by_cases h : Normalizer.pyStrip x ∈ Normalizer.LISS_VALUES
    · rw [if_pos h]
      exact h
    · rw [if_neg h]
      decide
  · intro x hx h
    unfold Normalizer.normalizeLISS
    rw [if_neg h]

/-- Witness for C4's amended theorem: the unrecognized code `"x2"` is
normalized to `"-"`, whose stripped form is in the enumeration. -/
theorem C4_liss_normalization_witness :
    Normalizer.normalizeLISS "x2" = "-" ∧
    Normalizer.pyStrip (Normalizer.normalizeLISS "x2") ∈ Normalizer.LISS_VALUES := by
  refine ⟨(C4_liss_normalization ["x2"]).2 "x2" (by decide) (by decide),
    (C4_liss_normalization ["x2"]).1 (Normalizer.normalizeLISS "x2") (by decide)⟩

/-- Claim C5: under the catalog invariant that every configured pair member is
a catalog antigen, the excluded set is a subset of the catalog, the system
selection equals exactly the catalog minus the excluded set, and the user
selection is initialized equal to the system selection. -/
theorem C5_subset_invariant
    (catalog : List String) (p : Engine.Panel)
    (hpairs : ∀ pr ∈ Engine.exclusion_pairs, pr.1 ∈ catalog ∧ pr.2 ∈ catalog) :
    (∀ a ∈ Engine.systemExcludedList catalog p, a ∈ catalog) ∧
    (∀ a, a ∈ Engine.selectedAntigens catalog p ↔
        a ∈ catalog ∧ a ∉ Engine.systemExcludedList catalog p) ∧
    Engine.initialUserSelections catalog p = Engine.selectedAntigens catalog p := by
  refine ⟨?_, ?_, rfl⟩
  · intro a ha
    obtain ⟨r, hr, hneg, hstag⟩ := (Engine.mem_systemExcluded_iff catalog p a).1 ha
    rcases List.mem_append.1 hstag with h | h
    · exact ((Engine.mem_rawStagings_iff _ _ _ _).1 h).2.1
    · obtain ⟨pr, hpr, hmem⟩ := List.mem_flatMap.1 h
      obtain ⟨hor, _, _⟩ := Engine.pairStagings1_sub _ _ _ _ hmem
      rcases hor with rfl | rfl
      · exact (hpairs pr hpr).1
      · exact (hpairs pr hpr).2
  · intro a
    unfold Engine.selectedAntigens
    simp only [List.mem_filter, decide_eq_true_eq]

/-- Witness for C5: on the shipped 26-antigen catalog and the C/c scenario
panel, `C` is excluded and inside the catalog, and the selection equations
hold. -/
theorem C5_subset_invariant_witness :
    "C" ∈ Engine.antigenColumns ∧
    ("C" ∈ Engine.selectedAntigens Engine.antigenColumns Scenarios.panelCc ↔
      "C" ∈ Engine.antigenColumns ∧
      "C" ∉ Engine.systemExcludedList Engine.antigenColumns Scenarios.panelCc) ∧
    Engine.initialUserSelections Engine.antigenColumns Scenarios.panelCc =
      Engine.selectedAntigens Engine.antigenColumns Scenarios.panelCc := by
  have h := C5_subset_invariant Engine.antigenColumns Scenarios.panelCc (by decide)
  exact ⟨h.1 "C" (by decide), h.2.1 "C", h.2.2⟩

/-- Claim C6, code bug: the lab-technical report computes its "system
selection" by filtering out statuses containing the substring
`"Ausgeschlossen"`, but the excluded status produced by the engine is
`"Ausgestrichen"`, which never contains that substring — the filter is dead,
so every status-map antigen counts as system-selected. Hence on the failing
input (status map `K ↦ "Ausgestrichen"`, `k ↦ "Keine Reaktion"`, user
selection `["k"]`) the report counts `K` as a difference although the true
symmetric difference of the system selection (non-excluded antigens) and the
user selection is empty. -/
theorem C6_lab_report_differences_bug :
    (∀ (catalog : List String) (p : Engine.Panel),
      LabReport.labSystemSelected (Engine.statusMapList catalog p) = catalog) ∧
    LabReport.labSystemSelected [("K", "Ausgestrichen"), ("k", "Keine Reaktion")]
      = ["K", "k"] ∧
    LabReport.labDifferences [("K", "Ausgestrichen"), ("k", "Keine Reaktion")] ["k"]
      = {"K"} ∧
    LabReport.symmDiffSet ["k"]
      (LabReport.specSystemSelected [("K", "Ausgestrichen"), ("k", "Keine Reaktion")])
      = ∅ := by
  refine ⟨Engine.labSystemSelected_statusMap, by decide, by decide, by decide⟩

/-- Claim C7: for every excluded catalog antigen, the audit reason is built
from the sorted, de-duplicated list of its tracking entries; that list is
ascending and duplicate-free, and contains exactly the 1-based indices of the
negative rows on which the antigen was staged (raw or pair staging alike). -/
theorem C7_audit_trail
    (catalog : List String) (p : Engine.Panel) (ag : String)
    (hag : ag ∈ catalog) (hex : ag ∈ Engine.systemExcludedList catalog p) :
    (Engine.exclusionReasonsList catalog p).lookup ag =
      some (Engine.mkReason (Engine.sortedDedup (Engine.exclusionTracking catalog p ag))) ∧
    List.Sorted (fun a b => a ≤ b)
      (Engine.sortedDedup (Engine.exclusionTracking catalog p ag)) ∧
    (Engine.sortedDedup (Engine.exclusionTracking catalog p ag)).Nodup ∧
    (∀ n, n ∈ Engine.sortedDedup (Engine.exclusionTracking catalog p ag) ↔
      ∃ i r, p.rows[i]? = some r ∧ r.liss = "-" ∧ n = i + 1 ∧
        ag ∈ Engine.rowStagings catalog p.negCols r) := by
  refine ⟨?_, Engine.sortedDedup_sorted _, Engine.sortedDedup_nodup _, ?_⟩
  · have hmem : ag ∈ catalog.filter
        (fun x => x ∈ Engine.systemExcludedList catalog p) := by
      simp only [List.mem_filter, decide_eq_true_eq]
      exact ⟨hag, hex⟩
    exact Engine.lookup_map_self _ _ ag hmem
  · intro n
    rw [Engine.mem_sortedDedup, Engine.mem_exclusionTracking_iff]

/-- Witness for C7: on the C/c scenario panel the reason entry for `C` is the
rendered sorted de-duplicated tracking list, and row index 1 is a causing row. -/
theorem C7_audit_trail_witness :
    (Engine.exclusionReasonsList ["C", "c"] Scenarios.panelCc).lookup "C" =
      some (Engine.mkReason
        (Engine.sortedDedup (Engine.exclusionTracking ["C", "c"] Scenarios.panelCc "C"))) ∧
    (∃ i r, Scenarios.panelCc.rows[i]? = some r ∧ r.liss = "-" ∧ 1 = i + 1 ∧
      "C" ∈ Engine.rowStagings ["C", "c"] Scenarios.panelCc.negCols r) := by
  have h := C7_audit_trail ["C", "c"] Scenarios.panelCc "C" (by decide) (by decide)
  exact ⟨h.1, (h.2.2.2 1).1 (by decide)⟩

/-- Dict lookup with an integer key finds nothing in a string-keyed dict. -/
theorem lookup_int_eq_none (n : Int) :
    ∀ l : Wizard.PyDict, (∀ kv ∈ l, ∃ s, kv.1 = Wizard.PyKey.str s) →
      l.lookup (Wizard.PyKey.int n) = none := by
  intro l
  induction l with
  | nil => intro _; rfl
  | cons kv t ih =>
    intro h
    obtain ⟨s, hs⟩ := h kv (List.mem_cons_self _ _)
    obtain ⟨k, v⟩ := kv
    simp only at hs
    subst hs
    have hbeq : (Wizard.PyKey.int n == Wizard.PyKey.str s) = false :=
      beq_eq_false_iff_ne.2 (fun hc => Wizard.PyKey.noConfusion hc)
    simp only [List.lookup, hbeq]
    exact ih (fun kv2 hkv2 => h kv2 (List.mem_cons_of_mem _ hkv2))

/-- A string-keyed dict (in the `allStrKeys` sense) has only string keys. -/
theorem allStrKeys_keys (d : Wizard.PyDict) (hd : Wizard.allStrKeys d = true) :
    ∀ kv ∈ d, ∃ s, kv.1 = Wizard.PyKey.str s := by
  intro kv hkv
  have h := (List.all_eq_true.1 hd) kv hkv
  obtain ⟨k, v⟩ := kv
  cases k with
  | int m => simp [Wizard.allStrKeys] at h
  | str s => exact ⟨s, rfl⟩

/-- An integer-key flag lookup on a string-keyed dict yields the default. -/
theorem dictGet_int_of_allStrKeys (d : Wizard.PyDict)
    (hd : Wizard.allStrKeys d = true) (n : Int) (dflt : Bool) :
    Wizard.dictGet d (Wizard.PyKey.int n) dflt = dflt := by
  unfold Wizard.dictGet
  rw [lookup_int_eq_none n d.reverse
    (fun kv hkv => allStrKeys_keys d hd kv (List.mem_reverse.1 hkv))]
  rfl

/-- The store round trip leaves every key a string. -/
theorem storeRoundTrip_allStrKeys (d : Wizard.PyDict) :
    Wizard.allStrKeys (Wizard.storeRoundTrip d) = true := by
  unfold Wizard.allStrKeys Wizard.storeRoundTrip
  rw [List.all_map]
  apply List.all_eq_true.2
  rintro ⟨k, v⟩ _
  cases k <;> rfl

/-- Claim C8, counterexample: from the reachable step-2 state produced by a
grading pass on a panel that excludes every catalog antigen — so the stored
system and user selections are both empty — the 2→3 advance is permitted and
moves the current step to 3: `go_to_step3` never checks the selection for
non-emptiness, refuting "a non-empty selection set for stage 2→3". -/
theorem C8_counterexample :
    Wizard.goToStep2 ["K", "k"] Scenarios.step1State true Scenarios.panelKk false
      = Wizard.CallbackResult.updated Scenarios.step2EmptySelectionState ∧
    Scenarios.step2EmptySelectionState.currentStep = 2 ∧
    Scenarios.step2EmptySelectionState.selectedAntigens = some [] ∧
    Scenarios.step2EmptySelectionState.userSelections = some [] ∧
    Wizard.step3IncludedColumns Scenarios.step2EmptySelectionState = [] ∧
    Wizard.goToStep3 Scenarios.step2EmptySelectionState true
      = Wizard.CallbackResult.updated Scenarios.step3AdvancedState ∧
    Scenarios.step3AdvancedState.currentStep = 3 := by
  refine ⟨rfl, rfl, by decide, by decide, by decide, rfl, rfl⟩

/-- Claim C8 (amended): the forward transitions are gated by click and
current-step checks and store truthiness, not by the previous stage's
outputs. The step-bar handler is always refused on a store-delivered state —
the `dcc.Store` JSON round trip stringifies the integer flag keys the
handlers write, while the gate looks up the integer step number — and every
writer produces a string-keyed dict. The 2→3 button advance is refused
without a click or off step 2, but with a click on step 2 and a non-empty
stored panel it always proceeds, with no check on the selection; a refused or
errored callback leaves every stored value unchanged. -/
theorem C8_transition_gating
    (st : Wizard.AppState) (n : Int) (df : Engine.Panel)
    (hkeys : Wizard.allStrKeys st.stepStates = true) :
    Wizard.handleStepNavigation st n = Wizard.CallbackResult.prevented ∧
    (∀ d : Wizard.PyDict, Wizard.allStrKeys (Wizard.storeRoundTrip d) = true) ∧
    Wizard.goToStep3 st false = Wizard.CallbackResult.prevented ∧
    (st.currentStep ≠ 2 → Wizard.goToStep3 st true = Wizard.CallbackResult.prevented) ∧
    (st.currentStep = 2 → st.analyzedData = some df → df.rows.isEmpty = false →
      Wizard.goToStep3 st true = Wizard.CallbackResult.updated { st with
        currentStep := 3
        stepStates := Wizard.storeRoundTrip (Wizard.dictSet
          (Wizard.dictSet st.stepStates (Wizard.PyKey.int 3) true)
          (Wizard.PyKey.int 4) true) }) ∧
    (∀ (r : Wizard.CallbackResult) (s : Wizard.AppState),
      r = Wizard.CallbackResult.prevented ∨ r = Wizard.CallbackResult.errored →
        r.stateD s = s) := by
  refine ⟨?_, storeRoundTrip_allStrKeys, ?_, ?_, ?_, ?_⟩
  · unfold Wizard.handleStepNavigation
    rw [dictGet_int_of_allStrKeys st.stepStates hkeys n false]
    simp
  · unfold Wizard.goToStep3
    simp
  · intro h
    unfold Wizard.goToStep3
    simp [h]
  · intro hstep hdata hrows
    unfold Wizard.goToStep3
    rw [hdata]
    simp [hstep, hrows]
  · rintro r s (rfl | rfl) <;> rfl

/-- Witness for C8's amended theorem: step-bar navigation from the initial
state is refused; the 2→3 advance is refused off step 2, and from the
reachable empty-selection step-2 state it proceeds to step 3. -/
theorem C8_transition_gating_witness :
    Wizard.handleStepNavigation Wizard.initialAppState 2
      = Wizard.CallbackResult.prevented ∧
    Wizard.goToStep3 Wizard.initialAppState true = Wizard.CallbackResult.prevented ∧
    Wizard.goToStep3 Scenarios.step2EmptySelectionState true
      = Wizard.CallbackResult.updated { Scenarios.step2EmptySelectionState with
          currentStep := 3
          stepStates := Wizard.storeRoundTrip (Wizard.dictSet
            (Wizard.dictSet Scenarios.step2EmptySelectionState.stepStates
              (Wizard.PyKey.int 3) true)
            (Wizard.PyKey.int 4) true) } := by
  have h1 := C8_transition_gating Wizard.initialAppState 2 Scenarios.panelKk (by decide)
  have h2 := C8_transition_gating Scenarios.step2EmptySelectionState 0 Scenarios.panelKk
    (by decide)
  exact ⟨h1.1, h1.2.2.2.1 (by decide), h2.2.2.2.2.1 rfl rfl rfl⟩

/-- Claim C9: storing an analysis snapshot through the `Analysis` setters
(`set_liss_data`, `set_status_data` with the status blob of `save_to_database`,
`set_user_selections`) and reading it back through the corresponding getters
reproduces the identical panel data, status map, exclusion reasons, excluded
list and user selections — save followed by load is the identity on these
fields. -/
theorem C9_snapshot_roundtrip
    (a : DB.Analysis)
    (liss statusMap exclusionReasons systemExcluded userSelections : Json.JVal) :
    (DB.saveToDatabase a liss statusMap exclusionReasons systemExcluded
        userSelections).get_liss_data = some liss ∧
    (DB.saveToDatabase a liss statusMap exclusionReasons systemExcluded
        userSelections).get_status_data
      = some (DB.statusBlob statusMap exclusionReasons systemExcluded) ∧
    (DB.saveToDatabase a liss statusMap exclusionReasons systemExcluded
        userSelections).get_user_selections = some userSelections ∧
    DB.jget (DB.statusBlob statusMap exclusionReasons systemExcluded) "status_map"
      = some statusMap ∧
    DB.jget (DB.statusBlob statusMap exclusionReasons systemExcluded) "exclusion_reasons"
      = some exclusionReasons ∧
    DB.jget (DB.statusBlob statusMap exclusionReasons systemExcluded) "system_excluded"
      = some systemExcluded := by
  obtain ⟨lj, sj, uj⟩ := a
  refine ⟨?_, ?_, ?_, rfl, rfl, rfl⟩
  · show (if Json.dumps liss = "" then none else Json.loads (Json.dumps liss)) = some liss
    rw [if_neg (Json.dumps_ne_empty liss), Json.loads_dumps]
  · show (if Json.dumps (DB.statusBlob statusMap exclusionReasons systemExcluded) = ""
        then none
        else Json.loads (Json.dumps (DB.statusBlob statusMap exclusionReasons
          systemExcluded)))
      = some (DB.statusBlob statusMap exclusionReasons systemExcluded)
    rw [if_neg (Json.dumps_ne_empty _), Json.loads_dumps]
  · show (if Json.dumps userSelections = ""
        then none else Json.loads (Json.dumps userSelections)) = some userSelections
    rw [if_neg (Json.dumps_ne_empty userSelections), Json.loads_dumps]

/-- Claim C10: with every configured pair member in the catalog, the excluded
set of the full engine has exactly the same members as the raw-staging-only
engine, the audit tracking has exactly the same causing rows, and both equal
the set of catalog antigens showing `"+"` on at least one negative row — the
zygosity branches only contribute duplicate audit entries. -/
theorem C10_pair_branches_redundant
    (catalog : List String) (p : Engine.Panel)
    (hpairs : ∀ pr ∈ Engine.exclusion_pairs, pr.1 ∈ catalog ∧ pr.2 ∈ catalog) :
    (∀ a, a ∈ Engine.systemExcludedList catalog p ↔
      a ∈ Engine.rawOnlyExcludedList catalog p) ∧
    (∀ a n, n ∈ Engine.exclusionTracking catalog p a ↔
      n ∈ Engine.rawOnlyTracking catalog p a) ∧
    (∀ a, a ∈ Engine.systemExcludedList catalog p ↔
      Engine.specExcludedSet catalog p a) := by
  refine ⟨?_, ?_, ?_⟩
  · intro a
    rw [Engine.mem_systemExcluded_iff, Engine.mem_rawOnlyExcluded_iff]
    constructor
    · rintro ⟨r, hr, hneg, hstag⟩
      exact ⟨r, hr, hneg, (Engine.mem_rowStagings_iff_raw catalog _ r hpairs a).1 hstag⟩
    · rintro ⟨r, hr, hneg, hstag⟩
      exact ⟨r, hr, hneg, (Engine.mem_rowStagings_iff_raw catalog _ r hpairs a).2 hstag⟩
  · intro a n
    rw [Engine.mem_exclusionTracking_iff, Engine.mem_rawOnlyTracking_iff]
    constructor
    · rintro ⟨i, r, hget, hneg, hn, hstag⟩
      exact ⟨i, r, hget, hneg, hn, (Engine.mem_rowStagings_iff_raw catalog _ r hpairs a).1 hstag⟩
    · rintro ⟨i, r, hget, hneg, hn, hstag⟩
      exact ⟨i, r, hget, hneg, hn, (Engine.mem_rowStagings_iff_raw catalog _ r hpairs a).2 hstag⟩
  · intro a
    rw [Engine.mem_systemExcluded_iff]
    constructor
    · rintro ⟨r, hr, hneg, hstag⟩
      have hraw := (Engine.mem_rowStagings_iff_raw catalog _ r hpairs a).1 hstag
      obtain ⟨hcol, hcat, hrx⟩ := (Engine.mem_rawStagings_iff _ _ _ _).1 hraw
      exact ⟨hcat, hcol, r, hr, hneg, hrx⟩
    · rintro ⟨hcat, hcol, r, hr, hneg, hrx⟩
      exact ⟨r, hr, hneg, List.mem_append.2
        (Or.inl ((Engine.mem_rawStagings_iff _ _ _ _).2 ⟨hcol, hcat, hrx⟩))⟩

/-- Witness for C10: on the shipped 26-antigen catalog and the K/k scenario
panel, the three equivalences instantiated at antigen `k` and row index 1. -/
theorem C10_pair_branches_redundant_witness :
    ("k" ∈ Engine.systemExcludedList Engine.antigenColumns Scenarios.panelKk ↔
      "k" ∈ Engine.rawOnlyExcludedList Engine.antigenColumns Scenarios.panelKk) ∧
    (1 ∈ Engine.exclusionTracking Engine.antigenColumns Scenarios.panelKk "k" ↔
      1 ∈ Engine.rawOnlyTracking Engine.antigenColumns Scenarios.panelKk "k") ∧
    ("k" ∈ Engine.systemExcludedList Engine.antigenColumns Scenarios.panelKk ↔
      Engine.specExcludedSet Engine.antigenColumns Scenarios.panelKk "k") := by
  have h := C10_pair_branches_redundant Engine.antigenColumns Scenarios.panelKk (by decide)
  exact ⟨h.1 "k", h.2.1 "k" 1, h.2.2 "k"⟩
